import Mathlib

/- Verification development for the WebRTC client of this repository
   (src/web-rtc-client.js). The JavaScript class WebRTCClient is shallowly
   embedded: its pure helpers become Lean functions and its stateful parts
   become explicit state-passing functions over record types. Machine
   integers do not occur in the modelled code (all counters are small
   non-negative integers), so Nat is used throughout. -/

/- Part 1: media tracks and the camera toggle (web-rtc-client.js lines
   288-294 and 892-910). A peer connection is modelled by the data the
   embedded code reads: the optional getSenders list (modern API) and the
   getLocalStreams list (legacy fallback). The field negotiationCount
   counts renegotiations (createOffer/hold) issued through the connection;
   _toggleVideo never touches it because its body only flips track flags. -/

def kindVideo : String := "video"

def kindAudio : String := "audio"

structure MediaTrack where
  kind : String
  enabled : Bool
deriving DecidableEq, Repr

structure RtpSender where
  track : Option MediaTrack
deriving DecidableEq, Repr

structure MediaStream where
  tracks : List MediaTrack
deriving DecidableEq, Repr

structure PeerConnection where
  senders : Option (List RtpSender)
  localStreams : List MediaStream
  negotiationCount : Nat
deriving DecidableEq, Repr

/- `if (sender.track && sender.track.kind === 'video') sender.track.enabled = !muteCamera` -/
def trackToggleVideo (enabledVal : Bool) (t : MediaTrack) : MediaTrack :=
  if t.kind = kindVideo then { t with enabled := enabledVal } else t

def senderToggleVideo (enabledVal : Bool) (sd : RtpSender) : RtpSender :=
  match sd.track with
  | some t => { sd with track := some (trackToggleVideo enabledVal t) }
  | none => sd

def streamToggleVideo (enabledVal : Bool) (st : MediaStream) : MediaStream :=
  { st with tracks := st.tracks.map (trackToggleVideo enabledVal) }

/- `_toggleVideo(session, muteCamera)`: on the getSenders branch every video
   sender track gets enabled = !muteCamera; on the legacy branch every video
   track of every local stream gets enabled = !muteCamera. No createOffer,
   hold, or other renegotiation is issued. -/
def toggleVideoImpl (pc : PeerConnection) (muteCamera : Bool) : PeerConnection :=
  match pc.senders with
  | some ss => { pc with senders := some (ss.map (senderToggleVideo (!muteCamera))) }
  | none => { pc with localStreams := pc.localStreams.map (streamToggleVideo (!muteCamera)) }

/- `toggleCameraOn(session) { this._toggleVideo(session, false); }` -/
def toggleCameraOn (pc : PeerConnection) : PeerConnection :=
  toggleVideoImpl pc false

/- `toggleCameraOff(session) { this._toggleVideo(session, true); }` -/
def toggleCameraOff (pc : PeerConnection) : PeerConnection :=
  toggleVideoImpl pc true

/- Observation helpers: the enabled flags of the video tracks a session
   sends, and the non-video tracks (which a camera toggle must not touch). -/
def videoFlagOfTrack (t : MediaTrack) : Option Bool :=
  if t.kind = kindVideo then some t.enabled else none

def nonVideoOfTrack (t : MediaTrack) : Option MediaTrack :=
  if t.kind = kindVideo then none else some t

def videoEnabledFlags (pc : PeerConnection) : List Bool :=
  match pc.senders with
  | some ss => ss.filterMap (fun sd => sd.track.bind videoFlagOfTrack)
  | none => (pc.localStreams.map (fun st => st.tracks.filterMap videoFlagOfTrack)).flatten

def nonVideoTracks (pc : PeerConnection) : List MediaTrack :=
  match pc.senders with
  | some ss => ss.filterMap (fun sd => sd.track.bind nonVideoOfTrack)
  | none => (pc.localStreams.map (fun st => st.tracks.filterMap nonVideoOfTrack)).flatten

/- Part 2: hangup termination dispatch (web-rtc-client.js lines 203-265).
   The sip.js SessionStatus values used by the actions table. -/

def STATUS_1XX_RECEIVED : Nat := 2

def STATUS_WAITING_FOR_ANSWER : Nat := 4

def STATUS_CANCELED : Nat := 8

def STATUS_TERMINATED : Nat := 9

/- The observable termination behaviour of one hangup call. caughtError
   records a TypeError raised inside the try block (calling a missing
   method); it is swallowed by the surrounding catch, so hangup itself
   never throws. -/
inductive HangupAction where
  | cancelAct : HangupAction
  | rejectAct : HangupAction
  | byeAct : HangupAction
  | stopAct : HangupAction
  | caughtError : HangupAction
deriving DecidableEq, Repr

/- The fields of a sip.js session that hangup reads. hasCancel models
   `typeof session.cancel !== 'undefined'` (the isISC test); canceledFlag
   models `session._canceled`; the has* fields model presence of the
   corresponding methods on the object. -/
structure SipSessionH where
  status : Nat
  hasCancel : Bool
  isCanceled : Bool
  canceledFlag : Bool
  hasAnswer : Bool
  hasBye : Bool
  hasReject : Bool
  hasStop : Bool
deriving DecidableEq, Repr

/- The `cancel` closure: `if (isISC && !session.isCanceled) session.cancel();
   else if (!session._canceled) session.reject();` - the reject call here is
   unguarded, so a session without reject raises (and the outer catch
   swallows it). -/
def cancelClosure (s : SipSessionH) : List HangupAction :=
  if s.hasCancel && !s.isCanceled then [HangupAction.cancelAct]
  else if !s.canceledFlag then
    if s.hasReject then [HangupAction.rejectAct] else [HangupAction.caughtError]
  else []

/- The `reject` closure: `session.reject && session.reject()`. -/
def rejectClosure (s : SipSessionH) : List HangupAction :=
  if s.hasReject then [HangupAction.rejectAct] else []

/- The status-dispatch part of hangup. The actions table maps status 2 and
   4 to the cancel closure and statuses 8 (canceled) and 9 (terminated) to
   null; `if (actions[session.status])` treats null like undefined, so for
   statuses 8 and 9 control FALLS THROUGH to the InviteServerContext branch
   and the final stop/reject lines instead of doing nothing. -/
def hangupTermination (s : SipSessionH) : List HangupAction :=
  if s.status = STATUS_1XX_RECEIVED || s.status = STATUS_WAITING_FOR_ANSWER then
    cancelClosure s
  else if s.hasCancel && s.hasAnswer && s.hasBye then
    [HangupAction.byeAct]
  else if s.hasCancel && !s.hasAnswer then
    cancelClosure s
  else
    (if s.hasStop then [HangupAction.stopAct] else []) ++ rejectClosure s

/- A terminated InviteServerContext that was answered: the common state of
   a call that already ended normally. -/
def terminatedIsc : SipSessionH :=
  { status := STATUS_TERMINATED, hasCancel := true, isCanceled := false,
    canceledFlag := false, hasAnswer := true, hasBye := true,
    hasReject := true, hasStop := false }

/- A terminated plain sessionDescriptionHandler-style session (no cancel
   method), with a reject method. -/
def terminatedNonIsc : SipSessionH :=
  { status := STATUS_TERMINATED, hasCancel := false, isCanceled := false,
    canceledFlag := false, hasAnswer := true, hasBye := true,
    hasReject := true, hasStop := false }

/- Part 3: ICE server selection (web-rtc-client.js lines 88-102). The
   private-network regex is anchored at the start and requires one of the
   alternatives 10, 127, 172.(16-31), 192.168 followed by a literal dot,
   so it matches exactly the strings having one of these dotted prefixes. -/

def privateIpAlternatives : List String :=
  ["10.", "127.", "192.168."] ++
    ((List.range 16).map (fun i => "172." ++ Nat.repr (16 + i) ++ "."))

def privateIpRegexMatches (ip : String) : Bool :=
  privateIpAlternatives.any (fun p => ip.startsWith p)

/- `isAPrivateIp` returns `regex.exec(ip) == null`: despite its name it is
   true exactly when the address does NOT match the private-network regex. -/
def isAPrivateIp (ip : String) : Bool :=
  !(privateIpRegexMatches ip)

def stunServerUrls : List String :=
  ["stun:stun.l.google.com:19302", "stun:stun4.l.google.com:19302"]

/- `getIceServers`: public STUN servers when isAPrivateIp (i.e. the regex
   does not match), empty list otherwise. -/
def getIceServers (ip : String) : List (List String) :=
  if isAPrivateIp ip then [stunServerUrls] else []

/- Part 4: the shouldAutoAnswer flag of the invite event
   (web-rtc-client.js lines 141-147):
   `const shouldAutoAnswer = !!session.request.getHeader('alert-info');`
   A SIP request is modelled by its header list; getHeader returns the
   value of the first header with the given name, or none. The JavaScript
   double negation maps the empty string to false. -/

def hdrAlertInfo : String := "alert-info"

structure SipRequest where
  headers : List (String × String)
deriving DecidableEq, Repr

def getHeader (r : SipRequest) (name : String) : Option String :=
  (r.headers.find? (fun p => p.1 = name)).map (fun p => p.2)

def emptyHeaderValue : String := ""

def shouldAutoAnswer (r : SipRequest) : Bool :=
  match getHeader r hdrAlertInfo with
  | none => false
  | some v => !(v == emptyHeaderValue)

/- Part 5: the registration retry loop (web-rtc-client.js lines 21,
   116-119, 622-631, 912-946). The mutable fields registerTries,
   registered, registering and registerTimeout of the client are embedded
   directly; in addition the model tracks the multiset of pending retry
   timers of the JavaScript runtime as a list of (timer id, delay in ms)
   pairs, the delays passed to setTimeout in order (scheduledDelays) and
   the failure flags passed to the reinit callback in order (cbCalls).
   setTimeout ids are allocated from nextTimerId. -/

def MAX_REGISTER_TRY : Nat := 200

structure RegState where
  registerTries : Nat
  registered : Bool
  registering : Bool
  registerTimeout : Option Nat
  pendingTimers : List (Nat × Nat)
  nextTimerId : Nat
  scheduledDelays : List Nat
  cbCalls : List Bool
deriving DecidableEq, Repr

/- Field initialisation in the constructor (lines 116-119). -/
def initRegState : RegState :=
  { registerTries := 0, registered := false, registering := false,
    registerTimeout := none, pendingTimers := [], nextTimerId := 0,
    scheduledDelays := [], cbCalls := [] }

/- `if (this.registerTimeout) clearTimeout(this.registerTimeout);` -/
def clearStoredTimeout (s : RegState) : RegState :=
  match s.registerTimeout with
  | some tid => { s with pendingTimers := s.pendingTimers.filter (fun t => t.1 ≠ tid) }
  | none => s

/- `_tryToRegister(cb)`: on the exit condition (registered, or tries at the
   maximum) clear the stored timer, call cb with the failure flag
   `registerTries >= MAX_REGISTER_TRY`, and drop the registering flag;
   otherwise schedule a retry timer with delay `1500 * this.registerTries`
   and store its id in registerTimeout. -/
def tryToRegister (s : RegState) : RegState :=
  if s.registered || decide (s.registerTries ≥ MAX_REGISTER_TRY) then
    let s1 := clearStoredTimeout s
    { s1 with
        cbCalls := s1.cbCalls ++ [decide (s.registerTries ≥ MAX_REGISTER_TRY)],
        registering := false }
  else
    { s with
        registerTimeout := some s.nextTimerId,
        pendingTimers := s.pendingTimers ++ [(s.nextTimerId, 1500 * s.registerTries)],
        nextTimerId := s.nextTimerId + 1,
        scheduledDelays := s.scheduledDelays ++ [1500 * s.registerTries] }

/- A pending retry timer fires: the callback rebuilds the user agent
   (no effect on the embedded fields), calls register() (the registered
   flag is only set later by the asynchronous registered event, modelled
   separately), increments registerTries and recurses into _tryToRegister. -/
def fireTimer (s : RegState) (tid : Nat) : RegState :=
  if s.pendingTimers.any (fun t => t.1 = tid) then
    tryToRegister
      { s with
          pendingTimers := s.pendingTimers.filter (fun t => t.1 ≠ tid),
          registerTries := s.registerTries + 1 }
  else s

/- `reinit(cb)` (lines 622-631). -/
def reinit (s : RegState) : RegState :=
  if s.registering then s
  else tryToRegister { s with registering := true, registerTries := 0, registered := false }

/- The events that drive the registration state: a reinit call, a pending
   timer firing, the user agent's registered event (sets registered), and
   a transport disconnected / protocol unregistered event, whose handler
   (lines 912-924) sets registered to false and calls reinit. -/
inductive RegEvent where
  | reinitEv : RegEvent
  | fireEv : Nat → RegEvent
  | registeredEv : RegEvent
  | disconnectedEv : RegEvent
deriving DecidableEq, Repr

def regStep (s : RegState) : RegEvent → RegState
  | RegEvent.reinitEv => reinit s
  | RegEvent.fireEv tid => fireTimer s tid
  | RegEvent.registeredEv => { s with registered := true }
  | RegEvent.disconnectedEv => reinit { s with registered := false }

def runEvents (s : RegState) (evs : List RegEvent) : RegState :=
  evs.foldl regStep s

/- The deterministic run in which every registration attempt fails (the
   registered event never arrives): fire the pending retry timer until
   none is left. -/
def fireNext (s : RegState) : RegState :=
  match s.pendingTimers with
  | [] => s
  | t :: _ => fireTimer s t.1

def iterateFire : Nat → RegState → RegState
  | 0, s => s
  | Nat.succ n, s => iterateFire n (fireNext s)

def exhaustedRun : RegState :=
  iterateFire MAX_REGISTER_TRY (reinit initRegState)

/- Part 6: the audio merge (web-rtc-client.js lines 45, 346-450, 527-535,
   803-813). The audio graph is modelled by numbering its nodes: sources
   and MediaStreamAudioDestinationNodes are allocated from nextNode, and
   connections is the list of (source, destination) edges currently
   connected. audioStreams is the per-session MergeEntry record (an
   association list keyed by SIP session id), mergeDestination the shared
   mixer destination, warnings the number of max-merge console warnings,
   offers the number of createOffer renegotiations and holdsIssued the
   number of hold() calls issued after a removal. -/

abbrev SessionId := String

structure MergeEntry where
  localAudioSource : Option Nat
  remoteAudioSource : Option Nat
deriving DecidableEq, Repr

/- The data of a sip.js session the merge code reads: its id, its
   localHold flag, whether its peer connection is closed (signalingState
   or iceConnectionState), and whether the local/remote MediaStream the
   client extracts from the peer connection is non-null. -/
structure MergeSession where
  sid : SessionId
  localHold : Bool
  pcClosed : Bool
  hasLocalStream : Bool
  hasRemoteStream : Bool
deriving DecidableEq, Repr

structure MixState where
  audioStreams : List (SessionId × MergeEntry)
  mergeDestination : Option Nat
  connections : List (Nat × Nat)
  nextNode : Nat
  warnings : Nat
  offers : Nat
  holdsIssued : Nat
  audioContextPresent : Bool
  isFirefox : Bool
deriving DecidableEq, Repr

/- JavaScript object operations on audioStreams:
   `this.audioStreams[id] = v`, `delete this.audioStreams[id]`,
   `id in this.audioStreams`. -/
def lookupEntry : List (SessionId × MergeEntry) → SessionId → Option MergeEntry
  | [], _ => none
  | p :: rest, k => if p.1 = k then some p.2 else lookupEntry rest k

def eraseEntry : List (SessionId × MergeEntry) → SessionId → List (SessionId × MergeEntry)
  | [], _ => []
  | p :: rest, k => if p.1 = k then eraseEntry rest k else p :: eraseEntry rest k

def setEntry : List (SessionId × MergeEntry) → SessionId → MergeEntry → List (SessionId × MergeEntry)
  | [], k, v => [(k, v)]
  | p :: rest, k, v => if p.1 = k then (k, v) :: rest else p :: setEntry rest k v

def MAX_MERGE_SESSIONS : Nat := 4

/- `_checkMaxMergeSessions(nbSessions)`: return silently when
   `nbSessions < MAX_MERGE_SESSIONS`, otherwise log a warning. -/
def checkMaxMergeSessions (st : MixState) (nbSessions : Nat) : MixState :=
  if nbSessions < MAX_MERGE_SESSIONS then st
  else { st with warnings := st.warnings + 1 }

/- `_addAudioStream(mediaStream)`: null without an audio context or a
   stream; otherwise create a source node for the stream and, when the
   shared mixer destination exists, connect the source to it. -/
def addAudioStream (st : MixState) (streamPresent : Bool) : Option Nat × MixState :=
  if !st.audioContextPresent || !streamPresent then (none, st)
  else
    (some st.nextNode,
     { st with
         nextNode := st.nextNode + 1,
         connections :=
           match st.mergeDestination with
           | some d => st.connections ++ [(st.nextNode, d)]
           | none => st.connections })

/- The `bindStreams` closure of addToMerge: create the local source, then
   the remote source, rewire the peer connection streams (peer-connection
   level, not part of the tracked graph), renegotiate with createOffer and
   record the MergeEntry. -/
def bindStreams (st : MixState) (s : MergeSession) (remotePresent : Bool) : MixState :=
  let lr1 := addAudioStream st s.hasLocalStream
  let lr2 := addAudioStream lr1.2 remotePresent
  { lr2.2 with
      offers := lr2.2.offers + 1,
      audioStreams := setEntry lr2.2.audioStreams s.sid
        { localAudioSource := lr1.1, remoteAudioSource := lr2.1 } }

/- `addToMerge(session)`: check the merge count (current entries plus one),
   and either bind immediately or - for a held session outside Firefox -
   defer binding to the session's next addTrack event (the deferred
   binding is a later event and not part of this call's effect). -/
def addToMerge (st : MixState) (s : MergeSession) : MixState :=
  let st0 := checkMaxMergeSessions st (st.audioStreams.length + 1)
  if s.localHold && !st0.isFirefox then st0
  else bindStreams st0 s s.hasRemoteStream

/- `audioSource.disconnect(destination)` removes every edge from the
   source to that destination. -/
def disconnectEdge (conns : List (Nat × Nat)) (src d : Nat) : List (Nat × Nat) :=
  conns.filter (fun p => p ≠ (src, d))

/- `removeFromMerge(session, shouldHold)` (lines 397-435). none models a
   raised TypeError (destructuring a missing entry, or disconnecting a
   null source or null destination); the code performs no state change
   before such a throw. With an audio context the code disconnects both
   sources from the shared destination, builds a fresh destination node,
   connects the sources to it, and - unless the peer connection is closed,
   in which case it returns early WITHOUT deleting the entry - deletes the
   entry, renegotiates and optionally re-holds the session. -/
def removeFromMerge (st : MixState) (s : MergeSession) (shouldHold : Bool) : Option MixState :=
  match lookupEntry st.audioStreams s.sid with
  | none => none
  | some e =>
    match st.mergeDestination with
    | none => none
    | some d =>
      match e.localAudioSource with
      | none => none
      | some l =>
        let c1 := match e.remoteAudioSource with
          | some r => disconnectEdge st.connections r d
          | none => st.connections
        let c2 := disconnectEdge c1 l d
        if st.audioContextPresent then
          let newDest := st.nextNode
          let c3 := (c2 ++ [(l, newDest)]) ++
            (match e.remoteAudioSource with
             | some r => [(r, newDest)]
             | none => [])
          if s.pcClosed then
            some { st with connections := c3, nextNode := newDest + 1 }
          else
            some { st with
                     connections := c3,
                     nextNode := newDest + 1,
                     audioStreams := eraseEntry st.audioStreams s.sid,
                     offers := st.offers + 1,
                     holdsIssued := st.holdsIssued + (if shouldHold then 1 else 0) }
        else
          some { st with
                   connections := c2,
                   audioStreams := eraseEntry st.audioStreams s.sid,
                   offers := st.offers + 1,
                   holdsIssued := st.holdsIssued + (if shouldHold then 1 else 0) }

/- `merge(sessions)` (lines 346-357): check the count, create a fresh
   shared mixer destination (browser environments have an audio context),
   resume the context if suspended (no graph effect), then add every
   session. -/
def merge (st : MixState) (sessions : List MergeSession) : MixState :=
  let st0 := checkMaxMergeSessions st sessions.length
  let st1 :=
    if st0.audioContextPresent then
      { st0 with mergeDestination := some st0.nextNode, nextNode := st0.nextNode + 1 }
    else st0
  sessions.foldl addToMerge st1

/- The removal pass of `unmerge(sessions)`: session i is removed with
   `shouldHold = i < sessions.length - 1`, which holds exactly for every
   session but the last. A raised error aborts the pass (the map callback
   throws synchronously) and unmerge rejects. -/
def unmergeRemovals (st : MixState) : List MergeSession → Option MixState
  | [] => some st
  | s :: rest =>
    match removeFromMerge st s (decide (rest ≠ [])) with
    | none => none
    | some st1 => unmergeRemovals st1 rest

/- `unmerge(sessions)` (lines 437-450): run all removals; once they all
   settle, null the shared mixer destination. -/
def unmerge (st : MixState) (sessions : List MergeSession) : Option MixState :=
  (unmergeRemovals st sessions).map (fun st1 => { st1 with mergeDestination := none })

/- Concrete states and sessions used by counterexamples and witnesses. -/

def pcCamOnInput : PeerConnection :=
  { senders := some [{ track := some { kind := kindVideo, enabled := false } }],
    localStreams := [], negotiationCount := 0 }

def pcCamOffInput : PeerConnection :=
  { senders := some [{ track := some { kind := kindVideo, enabled := true } }],
    localStreams := [], negotiationCount := 0 }

def reqEmptyAlert : SipRequest :=
  { headers := [(hdrAlertInfo, emptyHeaderValue)] }

def regStateW : RegState :=
  { registerTries := 7, registered := false, registering := true,
    registerTimeout := some 6, pendingTimers := [(6, 9000)], nextTimerId := 7,
    scheduledDelays := [], cbCalls := [] }

def cleanMixState : MixState :=
  { audioStreams := [], mergeDestination := some 0, connections := [],
    nextNode := 1, warnings := 0, offers := 0, holdsIssued := 0,
    audioContextPresent := true, isFirefox := false }

def mixSessionOne : MergeSession :=
  { sid := "s1", localHold := false, pcClosed := false,
    hasLocalStream := true, hasRemoteStream := true }

def mixSessionTwo : MergeSession :=
  { sid := "s2", localHold := false, pcClosed := false,
    hasLocalStream := true, hasRemoteStream := true }

def freshMixState : MixState :=
  { audioStreams := [], mergeDestination := none, connections := [],
    nextNode := 0, warnings := 0, offers := 0, holdsIssued := 0,
    audioContextPresent := true, isFirefox := false }

/- A session whose peer connection has closed (signalingState or
   iceConnectionState) by the time removeFromMerge runs, e.g. one being
   removed from the merge by the terminated-event handler. -/
def closedPcSession : MergeSession :=
  { sid := "c1", localHold := false, pcClosed := true,
    hasLocalStream := true, hasRemoteStream := true }

/- A session on local hold (outside Firefox): addToMerge defers its stream
   binding to the next addTrack event and records no MergeEntry yet. -/
def heldSession : MergeSession :=
  { sid := "h1", localHold := true, pcClosed := false,
    hasLocalStream := true, hasRemoteStream := true }

def threeEntryMixState : MixState :=
  { audioStreams := [("a", { localAudioSource := none, remoteAudioSource := none }),
                     ("b", { localAudioSource := none, remoteAudioSource := none }),
                     ("c", { localAudioSource := none, remoteAudioSource := none })],
    mergeDestination := none, connections := [],
    nextNode := 0, warnings := 0, offers := 0, holdsIssued := 0,
    audioContextPresent := true, isFirefox := false }

/- Helper lemmas about the association-list operations. -/

theorem lookupEntry_setEntry_self (m : List (SessionId × MergeEntry)) (k : SessionId)
    (v : MergeEntry) : lookupEntry (setEntry m k v) k = some v := by
  induction m with
  | nil => simp [setEntry, lookupEntry]
  | cons p rest ih =>
    by_cases h : p.1 = k
    · simp [setEntry, h, lookupEntry]
    · simp [setEntry, h, lookupEntry, ih]

theorem lookupEntry_setEntry_ne (m : List (SessionId × MergeEntry)) (k k' : SessionId)
    (v : MergeEntry) (h : k' ≠ k) :
    lookupEntry (setEntry m k v) k' = lookupEntry m k' := by
  induction m with
  | nil => simp [setEntry, lookupEntry, Ne.symm h]
  | cons p rest ih =>
    by_cases hp : p.1 = k
    · simp only [setEntry, if_pos hp, lookupEntry]
      rw [if_neg (Ne.symm h), if_neg (by rw [hp]; exact Ne.symm h)]
    · simp only [setEntry, if_neg hp, lookupEntry]
      by_cases hp' : p.1 = k'
      · rw [if_pos hp', if_pos hp']
      · rw [if_neg hp', if_neg hp', ih]

theorem lookupEntry_eraseEntry_self (m : List (SessionId × MergeEntry)) (k : SessionId) :
    lookupEntry (eraseEntry m k) k = none := by
  induction m with
  | nil => simp [eraseEntry, lookupEntry]
  | cons p rest ih =>
    by_cases h : p.1 = k
    · simp only [eraseEntry, if_pos h, ih]
    · simp only [eraseEntry, if_neg h, lookupEntry]
      exact ih

theorem lookupEntry_eraseEntry_ne (m : List (SessionId × MergeEntry)) (k k' : SessionId)
    (h : k' ≠ k) : lookupEntry (eraseEntry m k) k' = lookupEntry m k' := by
  induction m with
  | nil => simp [eraseEntry, lookupEntry]
  | cons p rest ih =>
    by_cases hp : p.1 = k
    · simp only [eraseEntry, if_pos hp, ih, lookupEntry]
      rw [if_neg (by rw [hp]; exact Ne.symm h)]
    · simp only [eraseEntry, if_neg hp, lookupEntry]
      by_cases hp' : p.1 = k'
      · rw [if_pos hp', if_pos hp']
      · rw [if_neg hp', if_neg hp', ih]

theorem eq_nil_of_lookupEntry_none (m : List (SessionId × MergeEntry))
    (h : ∀ k, lookupEntry m k = none) : m = [] := by
  cases m with
  | nil => rfl
  | cons p rest =>
    exfalso
    have hp := h p.1
    simp [lookupEntry] at hp

/- Helper lemmas for the camera toggle. -/

theorem filterMap_videoFlag_trackToggle (b : Bool) (l : List MediaTrack) :
    l.filterMap (videoFlagOfTrack ∘ trackToggleVideo b)
      = List.replicate (l.filterMap videoFlagOfTrack).length b := by
  induction l with
  | nil => rfl
  | cons t rest ih =>
    by_cases h : t.kind = kindVideo
    · simp [List.filterMap_cons, Function.comp, trackToggleVideo, videoFlagOfTrack, h, ih,
        List.replicate_succ]
    · simp [List.filterMap_cons, Function.comp, trackToggleVideo, videoFlagOfTrack, h, ih]

theorem filterMap_nonVideo_trackToggle (b : Bool) (l : List MediaTrack) :
    l.filterMap (nonVideoOfTrack ∘ trackToggleVideo b)
      = l.filterMap nonVideoOfTrack := by
  induction l with
  | nil => rfl
  | cons t rest ih =>
    by_cases h : t.kind = kindVideo
    · simp [List.filterMap_cons, Function.comp, trackToggleVideo, nonVideoOfTrack, h, ih]
    · simp [List.filterMap_cons, Function.comp, trackToggleVideo, nonVideoOfTrack, h, ih]

theorem filterMap_videoFlag_senderToggle (b : Bool) (l : List RtpSender) :
    l.filterMap ((fun sd => sd.track.bind videoFlagOfTrack) ∘ senderToggleVideo b)
      = List.replicate (l.filterMap (fun sd => sd.track.bind videoFlagOfTrack)).length b := by
  induction l with
  | nil => rfl
  | cons sd rest ih =>
    cases htr : sd.track with
    | none =>
      have hc : ((fun sd => sd.track.bind videoFlagOfTrack) ∘ senderToggleVideo b) sd
          = none := by
        simp [Function.comp, senderToggleVideo, htr]
      have hh : sd.track.bind videoFlagOfTrack = none := by simp [htr]
      simp only [List.filterMap_cons, hc, hh]
      exact ih
    | some t =>
      have hc : ((fun sd => sd.track.bind videoFlagOfTrack) ∘ senderToggleVideo b) sd
          = videoFlagOfTrack (trackToggleVideo b t) := by
        simp [Function.comp, senderToggleVideo, htr]
      have hh : sd.track.bind videoFlagOfTrack = videoFlagOfTrack t := by simp [htr]
      by_cases h : t.kind = kindVideo
      · have hc' : videoFlagOfTrack (trackToggleVideo b t) = some b := by
          simp [videoFlagOfTrack, trackToggleVideo, h]
        have hh' : videoFlagOfTrack t = some t.enabled := by simp [videoFlagOfTrack, h]
        simp only [List.filterMap_cons, hc, hc', hh, hh', List.length_cons,
          List.replicate_succ, ih]
      · have hc' : videoFlagOfTrack (trackToggleVideo b t) = none := by
          simp [videoFlagOfTrack, trackToggleVideo, h]
        have hh' : videoFlagOfTrack t = none := by simp [videoFlagOfTrack, h]
        simp only [List.filterMap_cons, hc, hc', hh, hh']
        exact ih

theorem filterMap_nonVideo_senderToggle (b : Bool) (l : List RtpSender) :
    l.filterMap ((fun sd => sd.track.bind nonVideoOfTrack) ∘ senderToggleVideo b)
      = l.filterMap (fun sd => sd.track.bind nonVideoOfTrack) := by
  induction l with
  | nil => rfl
  | cons sd rest ih =>
    cases htr : sd.track with
    | none =>
      have hc : ((fun sd => sd.track.bind nonVideoOfTrack) ∘ senderToggleVideo b) sd
          = none := by
        simp [Function.comp, senderToggleVideo, htr]
      have hh : sd.track.bind nonVideoOfTrack = none := by simp [htr]
      simp only [List.filterMap_cons, hc, hh]
      exact ih
    | some t =>
      have hc : ((fun sd => sd.track.bind nonVideoOfTrack) ∘ senderToggleVideo b) sd
          = nonVideoOfTrack (trackToggleVideo b t) := by
        simp [Function.comp, senderToggleVideo, htr]
      have hh : sd.track.bind nonVideoOfTrack = nonVideoOfTrack t := by simp [htr]
      by_cases h : t.kind = kindVideo
      · have hc' : nonVideoOfTrack (trackToggleVideo b t) = none := by
          simp [nonVideoOfTrack, trackToggleVideo, h]
        have hh' : nonVideoOfTrack t = none := by simp [nonVideoOfTrack, h]
        simp only [List.filterMap_cons, hc, hc', hh, hh']
        exact ih
      · have hc' : nonVideoOfTrack (trackToggleVideo b t) = some t := by
          simp [nonVideoOfTrack, trackToggleVideo, h]
        have hh' : nonVideoOfTrack t = some t := by simp [nonVideoOfTrack, h]
        simp only [List.filterMap_cons, hc, hc', hh, hh', ih]

theorem flatten_videoFlag_streamToggle (b : Bool) (ls : List MediaStream) :
    ((ls.map (streamToggleVideo b)).map (fun st => st.tracks.filterMap videoFlagOfTrack)).flatten
      = List.replicate ((ls.map (fun st => st.tracks.filterMap videoFlagOfTrack)).flatten).length b := by
  induction ls with
  | nil => rfl
  | cons st rest ih =>
    simp only [List.map_cons, List.flatten_cons, List.length_append, List.replicate_add]
    rw [show (streamToggleVideo b st).tracks = st.tracks.map (trackToggleVideo b) from rfl,
      List.filterMap_map, filterMap_videoFlag_trackToggle, ih]

theorem flatten_nonVideo_streamToggle (b : Bool) (ls : List MediaStream) :
    ((ls.map (streamToggleVideo b)).map (fun st => st.tracks.filterMap nonVideoOfTrack)).flatten
      = (ls.map (fun st => st.tracks.filterMap nonVideoOfTrack)).flatten := by
  induction ls with
  | nil => rfl
  | cons st rest ih =>
    simp only [List.map_cons, List.flatten_cons]
    rw [show (streamToggleVideo b st).tracks = st.tracks.map (trackToggleVideo b) from rfl,
      List.filterMap_map, filterMap_nonVideo_trackToggle, ih]

/-- C1 (amended): toggleCameraOn enables every outgoing video track of the
session and toggleCameraOff disables every outgoing video track — the
obvious mapping, not the inverted one — and both leave non-video tracks
untouched and issue no renegotiation. -/
theorem camera_toggle_mapping (pc : PeerConnection) :
    videoEnabledFlags (toggleCameraOn pc) = List.replicate (videoEnabledFlags pc).length true
    ∧ videoEnabledFlags (toggleCameraOff pc) = List.replicate (videoEnabledFlags pc).length false
    ∧ nonVideoTracks (toggleCameraOn pc) = nonVideoTracks pc
    ∧ nonVideoTracks (toggleCameraOff pc) = nonVideoTracks pc
    ∧ (toggleCameraOn pc).negotiationCount = pc.negotiationCount
    ∧ (toggleCameraOff pc).negotiationCount = pc.negotiationCount := by
  cases hs : pc.senders with
  | some ss =>
    have hOn : toggleCameraOn pc = { pc with senders := some (ss.map (senderToggleVideo true)) } := by
      simp [toggleCameraOn, toggleVideoImpl, hs]
    have hOff : toggleCameraOff pc = { pc with senders := some (ss.map (senderToggleVideo false)) } := by
      simp [toggleCameraOff, toggleVideoImpl, hs]
    have hv : videoEnabledFlags pc = ss.filterMap (fun sd => sd.track.bind videoFlagOfTrack) := by
      simp [videoEnabledFlags, hs]
    have hn : nonVideoTracks pc = ss.filterMap (fun sd => sd.track.bind nonVideoOfTrack) := by
      simp [nonVideoTracks, hs]
    refine ⟨?_, ?_, ?_, ?_, ?_, ?_⟩
    · rw [hOn, hv]
      show (ss.map (senderToggleVideo true)).filterMap _ = _
      rw [List.filterMap_map, filterMap_videoFlag_senderToggle]
    · rw [hOff, hv]
      show (ss.map (senderToggleVideo false)).filterMap _ = _
      rw [List.filterMap_map, filterMap_videoFlag_senderToggle]
    · rw [hOn, hn]
      show (ss.map (senderToggleVideo true)).filterMap _ = _
      rw [List.filterMap_map, filterMap_nonVideo_senderToggle]
    · rw [hOff, hn]
      show (ss.map (senderToggleVideo false)).filterMap _ = _
      rw [List.filterMap_map, filterMap_nonVideo_senderToggle]
    · rw [hOn]
    · rw [hOff]
  | none =>
    have hOn : toggleCameraOn pc
        = { senders := none, localStreams := pc.localStreams.map (streamToggleVideo true),
            negotiationCount := pc.negotiationCount } := by
      simp [toggleCameraOn, toggleVideoImpl, hs]
    have hOff : toggleCameraOff pc
        = { senders := none, localStreams := pc.localStreams.map (streamToggleVideo false),
            negotiationCount := pc.negotiationCount } := by
      simp [toggleCameraOff, toggleVideoImpl, hs]
    have hv : videoEnabledFlags pc
        = (pc.localStreams.map (fun st => st.tracks.filterMap videoFlagOfTrack)).flatten := by
      simp [videoEnabledFlags, hs]
    have hn : nonVideoTracks pc
        = (pc.localStreams.map (fun st => st.tracks.filterMap nonVideoOfTrack)).flatten := by
      simp [nonVideoTracks, hs]
    refine ⟨?_, ?_, ?_, ?_, ?_, ?_⟩
    · rw [hOn, hv]
      show ((pc.localStreams.map (streamToggleVideo true)).map _).flatten = _
      rw [flatten_videoFlag_streamToggle]
    · rw [hOff, hv]
      show ((pc.localStreams.map (streamToggleVideo false)).map _).flatten = _
      rw [flatten_videoFlag_streamToggle]
    · rw [hOn, hn]
      show ((pc.localStreams.map (streamToggleVideo true)).map _).flatten = _
      rw [flatten_nonVideo_streamToggle]
    · rw [hOff, hn]
      show ((pc.localStreams.map (streamToggleVideo false)).map _).flatten = _
      rw [flatten_nonVideo_streamToggle]
    · rw [hOn]
    · rw [hOff]

/-- C1 (counterexample): on a session whose only video sender track is
disabled, toggleCameraOn leaves the track ENABLED (the claim, which says
toggleCameraOn disables video tracks, would require [false]); dually,
toggleCameraOff on an enabled track leaves it disabled. -/
theorem camera_toggle_claim_counterexample :
    videoEnabledFlags (toggleCameraOn pcCamOnInput) = [true]
    ∧ videoEnabledFlags (toggleCameraOn pcCamOnInput) ≠ [false]
    ∧ videoEnabledFlags (toggleCameraOff pcCamOffInput) = [false]
    ∧ videoEnabledFlags (toggleCameraOff pcCamOffInput) ≠ [true] := by
  decide

/-- C2 (code bug evidence): hangup on a session whose status is already
STATUS_TERMINATED is NOT a no-op: the null entries of the actions table
are treated as missing, control falls through, and the code sends a BYE
for an answered InviteServerContext (and a reject for a plain session),
contradicting the code's own comments ("Status 9: nothing to do"). -/
theorem hangup_terminated_sends_bye :
    hangupTermination terminatedIsc = [HangupAction.byeAct]
    ∧ hangupTermination terminatedNonIsc = [HangupAction.rejectAct]
    ∧ terminatedIsc.status = STATUS_TERMINATED
    ∧ terminatedNonIsc.status = STATUS_TERMINATED := by
  decide

/-- C8 (confirmed): the ICE server list contains the public STUN servers
exactly when the configured host does not match the private-network
address regex, and is empty exactly when the host is a private/internal
address. -/
theorem ice_servers_iff_public_host (ip : String) :
    (getIceServers ip = [stunServerUrls] ↔ privateIpRegexMatches ip = false)
    ∧ (getIceServers ip = [] ↔ privateIpRegexMatches ip = true) := by
  unfold getIceServers isAPrivateIp
  cases h : privateIpRegexMatches ip <;> simp [h, stunServerUrls]

/-- C10 (amended): the shouldAutoAnswer flag emitted with the invite event
is true exactly when the inbound request carries an alert-info header with
a non-empty value (the JavaScript double negation maps an empty header
value to false). -/
theorem auto_answer_iff_nonempty_alert_info (r : SipRequest) :
    shouldAutoAnswer r = true ↔
      ∃ v, getHeader r hdrAlertInfo = some v ∧ v ≠ emptyHeaderValue := by
  unfold shouldAutoAnswer
  cases h : getHeader r hdrAlertInfo with
  | none => simp
  | some v => simp [h]

/-- C10 (counterexample): a request that carries an alert-info header with
an empty value - the header is present, so the claim as stated requires
shouldAutoAnswer = true - yields shouldAutoAnswer = false. -/
theorem auto_answer_empty_header_counterexample :
    (getHeader reqEmptyAlert hdrAlertInfo).isSome = true
    ∧ shouldAutoAnswer reqEmptyAlert = false := by
  decide

/- Field-preservation lemmas for the merge operations. -/

theorem addAudioStream_snd_warnings (st : MixState) (b : Bool) :
    ((addAudioStream st b).2).warnings = st.warnings := by
  unfold addAudioStream; split <;> rfl

theorem addAudioStream_snd_audioStreams (st : MixState) (b : Bool) :
    ((addAudioStream st b).2).audioStreams = st.audioStreams := by
  unfold addAudioStream; split <;> rfl

theorem addAudioStream_snd_mergeDestination (st : MixState) (b : Bool) :
    ((addAudioStream st b).2).mergeDestination = st.mergeDestination := by
  unfold addAudioStream; split <;> rfl

theorem addAudioStream_snd_audioContextPresent (st : MixState) (b : Bool) :
    ((addAudioStream st b).2).audioContextPresent = st.audioContextPresent := by
  unfold addAudioStream; split <;> rfl

theorem addAudioStream_snd_isFirefox (st : MixState) (b : Bool) :
    ((addAudioStream st b).2).isFirefox = st.isFirefox := by
  unfold addAudioStream; split <;> rfl

theorem checkMax_warnings (st : MixState) (n : Nat) :
    (checkMaxMergeSessions st n).warnings
      = if n < MAX_MERGE_SESSIONS then st.warnings else st.warnings + 1 := by
  unfold checkMaxMergeSessions; split <;> simp [*]

theorem checkMax_audioStreams (st : MixState) (n : Nat) :
    (checkMaxMergeSessions st n).audioStreams = st.audioStreams := by
  unfold checkMaxMergeSessions; split <;> rfl

theorem checkMax_mergeDestination (st : MixState) (n : Nat) :
    (checkMaxMergeSessions st n).mergeDestination = st.mergeDestination := by
  unfold checkMaxMergeSessions; split <;> rfl

theorem checkMax_audioContextPresent (st : MixState) (n : Nat) :
    (checkMaxMergeSessions st n).audioContextPresent = st.audioContextPresent := by
  unfold checkMaxMergeSessions; split <;> rfl

theorem checkMax_isFirefox (st : MixState) (n : Nat) :
    (checkMaxMergeSessions st n).isFirefox = st.isFirefox := by
  unfold checkMaxMergeSessions; split <;> rfl

theorem checkMax_nextNode (st : MixState) (n : Nat) :
    (checkMaxMergeSessions st n).nextNode = st.nextNode := by
  unfold checkMaxMergeSessions; split <;> rfl

theorem checkMax_connections (st : MixState) (n : Nat) :
    (checkMaxMergeSessions st n).connections = st.connections := by
  unfold checkMaxMergeSessions; split <;> rfl

theorem bindStreams_warnings (st : MixState) (s : MergeSession) (r : Bool) :
    (bindStreams st s r).warnings = st.warnings := by
  simp [bindStreams, addAudioStream_snd_warnings]

theorem addToMerge_warnings (st : MixState) (s : MergeSession) (hh : s.localHold = false) :
    (addToMerge st s).warnings
      = if st.audioStreams.length + 1 < MAX_MERGE_SESSIONS then st.warnings
        else st.warnings + 1 := by
  unfold addToMerge
  simp [hh, bindStreams_warnings, checkMax_warnings]

theorem addToMerge_lookup_self (st : MixState) (s : MergeSession) (hh : s.localHold = false) :
    ∃ e, lookupEntry (addToMerge st s).audioStreams s.sid = some e := by
  unfold addToMerge bindStreams
  simp only [hh, Bool.false_and, Bool.false_eq_true, if_false]
  exact ⟨_, lookupEntry_setEntry_self _ _ _⟩

/-- C9 (amended): a resource-risk warning is logged exactly when the
prospective number of simultaneous MergeEntry instances REACHES OR EXCEEDS
the configured maximum of 4 (the code warns when entries + 1 is not below
the maximum), never below it; the operation is not rejected either way and
the entry is still recorded. -/
theorem merge_warning_threshold (st : MixState) (s : MergeSession)
    (hh : s.localHold = false) :
    ((addToMerge st s).warnings
      = if st.audioStreams.length + 1 < MAX_MERGE_SESSIONS then st.warnings
        else st.warnings + 1)
    ∧ (∃ e, lookupEntry (addToMerge st s).audioStreams s.sid = some e) :=
  ⟨addToMerge_warnings st s hh, addToMerge_lookup_self st s hh⟩

theorem merge_warning_threshold_witness :
    ((addToMerge threeEntryMixState mixSessionOne).warnings
      = if threeEntryMixState.audioStreams.length + 1 < MAX_MERGE_SESSIONS
        then threeEntryMixState.warnings else threeEntryMixState.warnings + 1)
    ∧ (∃ e, lookupEntry (addToMerge threeEntryMixState mixSessionOne).audioStreams
        mixSessionOne.sid = some e) :=
  merge_warning_threshold threeEntryMixState mixSessionOne rfl

/-- C9 (counterexample): adding a session to a client that already holds 3
MergeEntry instances makes the count reach exactly the maximum of 4 — it
does not EXCEED it, so the claim says no warning may be logged — yet the
code logs a resource-risk warning (while still adding the entry). -/
theorem merge_warning_at_max_counterexample :
    threeEntryMixState.audioStreams.length + 1 = MAX_MERGE_SESSIONS
    ∧ (addToMerge threeEntryMixState mixSessionOne).warnings
        = threeEntryMixState.warnings + 1
    ∧ lookupEntry (addToMerge threeEntryMixState mixSessionOne).audioStreams
        mixSessionOne.sid ≠ none := by
  decide

set_option maxRecDepth 4000 in
/-- C3 (confirmed): in the run in which every registration attempt fails,
once the try counter reaches MAX_REGISTER_TRY (200) the loop has invoked
its completion callback exactly once, with the failure flag true, has
cleared the registering flag, no retry timer is pending, and firing again
schedules nothing further. -/
theorem register_retry_exhaustion :
    exhaustedRun.cbCalls = [true]
    ∧ exhaustedRun.registering = false
    ∧ exhaustedRun.pendingTimers = []
    ∧ exhaustedRun.registerTries = MAX_REGISTER_TRY
    ∧ fireNext exhaustedRun = exhaustedRun := by
  decide

theorem tryToRegister_schedule (s : RegState) (h1 : s.registered = false)
    (h2 : s.registerTries < MAX_REGISTER_TRY) :
    tryToRegister s = { s with
        registerTimeout := some s.nextTimerId,
        pendingTimers := s.pendingTimers ++ [(s.nextTimerId, 1500 * s.registerTries)],
        nextTimerId := s.nextTimerId + 1,
        scheduledDelays := s.scheduledDelays ++ [1500 * s.registerTries] } := by
  have hc : (s.registered || decide (s.registerTries ≥ MAX_REGISTER_TRY)) = false := by
    rw [h1]
    simp [Nat.not_le.mpr h2]
  unfold tryToRegister
  rw [hc, if_neg Bool.false_ne_true]

/-- C4 (confirmed): whenever _tryToRegister runs with the registered flag
down and the try counter at k below the maximum, the retry timer it
schedules for attempt k+1 carries a delay of exactly 1500 * k
milliseconds (so the first attempt after reinit is delayed 0 ms). -/
theorem register_retry_backoff (s : RegState) (h1 : s.registered = false)
    (h2 : s.registerTries < MAX_REGISTER_TRY) :
    (tryToRegister s).scheduledDelays = s.scheduledDelays ++ [1500 * s.registerTries]
    ∧ (tryToRegister s).pendingTimers
        = s.pendingTimers ++ [(s.nextTimerId, 1500 * s.registerTries)] := by
  rw [tryToRegister_schedule s h1 h2]
  exact ⟨rfl, rfl⟩

theorem register_retry_backoff_witness :
    (tryToRegister regStateW).scheduledDelays
      = regStateW.scheduledDelays ++ [1500 * regStateW.registerTries]
    ∧ (tryToRegister regStateW).pendingTimers
      = regStateW.pendingTimers ++ [(regStateW.nextTimerId, 1500 * regStateW.registerTries)] :=
  register_retry_backoff regStateW (by decide) (by decide)

/- The single-retry-loop invariant: at most one retry timer is pending,
   and none is pending unless the registering flag is up. -/
def RegInv (s : RegState) : Prop :=
  s.pendingTimers.length ≤ 1 ∧ (s.registering = false → s.pendingTimers = [])

theorem regInv_tryToRegister (s : RegState) (hnil : s.pendingTimers = [])
    (hreg : s.registering = true) : RegInv (tryToRegister s) := by
  unfold tryToRegister clearStoredTimeout
  by_cases hc : (s.registered || decide (s.registerTries ≥ MAX_REGISTER_TRY)) = true
  · rw [if_pos hc]
    cases hto : s.registerTimeout <;> simp [RegInv, hto, hnil]
  · rw [if_neg hc]
    constructor
    · simp [hnil]
    · intro hf
      have hf' : s.registering = false := hf
      rw [hreg] at hf'
      cases hf'

theorem regInv_reinit (s : RegState) (h : RegInv s) : RegInv (reinit s) := by
  unfold reinit
  by_cases hr : s.registering = true
  · rw [if_pos hr]; exact h
  · have hr' : s.registering = false := by
      cases hb : s.registering
      · rfl
      · exact absurd hb hr
    rw [if_neg hr]
    exact regInv_tryToRegister _ (h.2 hr') rfl

theorem regInv_fireTimer (s : RegState) (tid : Nat) (h : RegInv s) :
    RegInv (fireTimer s tid) := by
  unfold fireTimer
  by_cases hany : s.pendingTimers.any (fun t => t.1 = tid) = true
  · rw [if_pos hany]
    have hreg : s.registering = true := by
      cases hb : s.registering
      · exfalso
        have hnil := h.2 hb
        rw [hnil] at hany
        simp at hany
      · rfl
    have hfil : s.pendingTimers.filter (fun t => t.1 ≠ tid) = [] := by
      cases hp : s.pendingTimers with
      | nil => rfl
      | cons t rest =>
        have hlen := h.1
        rw [hp] at hlen
        have hrest : rest = [] := by
          cases rest with
          | nil => rfl
          | cons a b => simp at hlen
        subst hrest
        rw [hp] at hany
        simp at hany
        simp [List.filter_cons, hany]
    exact regInv_tryToRegister _ hfil hreg
  · rw [if_neg hany]; exact h

theorem regInv_step (s : RegState) (e : RegEvent) (h : RegInv s) : RegInv (regStep s e) := by
  cases e with
  | reinitEv => exact regInv_reinit s h
  | fireEv tid => exact regInv_fireTimer s tid h
  | registeredEv => exact h
  | disconnectedEv => exact regInv_reinit _ h

theorem regInv_run (evs : List RegEvent) : ∀ s, RegInv s → RegInv (runEvents s evs) := by
  induction evs with
  | nil => intro s h; exact h
  | cons e rest ih => intro s h; exact ih (regStep s e) (regInv_step s e h)

theorem regInv_initRegState : RegInv initRegState :=
  ⟨by decide, fun _ => rfl⟩

/-- C5 (confirmed): along every event sequence from the initial state at
most one retry timer is ever pending (a single retry loop); calling
reinit while the registering flag is up is a no-op, and calling it
otherwise resets the try counter to 0, clears the registered flag, raises
the registering flag, and starts exactly one pending retry timer. -/
theorem reinit_single_retry_loop (evs : List RegEvent) :
    (runEvents initRegState evs).pendingTimers.length ≤ 1
    ∧ ((runEvents initRegState evs).registering = true →
        reinit (runEvents initRegState evs) = runEvents initRegState evs)
    ∧ ((runEvents initRegState evs).registering = false →
        (reinit (runEvents initRegState evs)).registerTries = 0
        ∧ (reinit (runEvents initRegState evs)).registered = false
        ∧ (reinit (runEvents initRegState evs)).registering = true
        ∧ (reinit (runEvents initRegState evs)).pendingTimers.length = 1) := by
  have h := regInv_run evs initRegState regInv_initRegState
  refine ⟨h.1, ?_, ?_⟩
  · intro hr
    unfold reinit
    rw [if_pos hr]
  · intro hr
    have hnil : (runEvents initRegState evs).pendingTimers = [] := h.2 hr
    unfold reinit
    rw [if_neg (by rw [hr]; exact Bool.false_ne_true)]
    have hlt : (0 : Nat) < MAX_REGISTER_TRY := by decide
    rw [tryToRegister_schedule _ rfl hlt]
    refine ⟨rfl, rfl, rfl, ?_⟩
    simp [hnil]

theorem reinit_single_retry_loop_witness :
    (runEvents initRegState []).registering = false
    ∧ (reinit (runEvents initRegState [])).registerTries = 0
    ∧ (reinit (runEvents initRegState [])).registered = false
    ∧ (reinit (runEvents initRegState [])).registering = true
    ∧ (reinit (runEvents initRegState [])).pendingTimers.length = 1 := by
  have h := (reinit_single_retry_loop []).2.2 (by decide)
  exact ⟨by decide, h.1, h.2.1, h.2.2.1, h.2.2.2⟩

/- Equation lemmas for addToMerge and removeFromMerge on the main path. -/

theorem addAudioStream_present (st : MixState) (hctx : st.audioContextPresent = true) :
    addAudioStream st true = (some st.nextNode,
      { st with
          nextNode := st.nextNode + 1,
          connections :=
            match st.mergeDestination with
            | some d => st.connections ++ [(st.nextNode, d)]
            | none => st.connections }) := by
  simp [addAudioStream, hctx]

theorem bindStreams_mergeDestination (st : MixState) (s : MergeSession) (r : Bool) :
    (bindStreams st s r).mergeDestination = st.mergeDestination := by
  simp [bindStreams, addAudioStream_snd_mergeDestination]

theorem bindStreams_audioContextPresent (st : MixState) (s : MergeSession) (r : Bool) :
    (bindStreams st s r).audioContextPresent = st.audioContextPresent := by
  simp [bindStreams, addAudioStream_snd_audioContextPresent]

theorem addToMerge_mergeDestination (st : MixState) (s : MergeSession) :
    (addToMerge st s).mergeDestination = st.mergeDestination := by
  by_cases hcond :
      (s.localHold && !(checkMaxMergeSessions st (st.audioStreams.length + 1)).isFirefox) = true
  · simp [addToMerge, hcond, checkMax_mergeDestination]
  · simp [addToMerge, hcond, bindStreams_mergeDestination, checkMax_mergeDestination]

theorem addToMerge_audioContextPresent (st : MixState) (s : MergeSession) :
    (addToMerge st s).audioContextPresent = st.audioContextPresent := by
  by_cases hcond :
      (s.localHold && !(checkMaxMergeSessions st (st.audioStreams.length + 1)).isFirefox) = true
  · simp [addToMerge, hcond, checkMax_audioContextPresent]
  · simp [addToMerge, hcond, bindStreams_audioContextPresent, checkMax_audioContextPresent]

theorem addToMerge_lookupEntry_ne (st : MixState) (s : MergeSession) (k : SessionId)
    (hk : k ≠ s.sid) :
    lookupEntry (addToMerge st s).audioStreams k = lookupEntry st.audioStreams k := by
  by_cases hcond :
      (s.localHold && !(checkMaxMergeSessions st (st.audioStreams.length + 1)).isFirefox) = true
  · simp [addToMerge, hcond, checkMax_audioStreams]
  · simp [addToMerge, bindStreams, hcond, addAudioStream_snd_audioStreams,
      checkMax_audioStreams, lookupEntry_setEntry_ne, hk]

theorem addToMerge_lookup_self_local (st : MixState) (s : MergeSession)
    (hh : s.localHold = false) (hctx : st.audioContextPresent = true)
    (hl : s.hasLocalStream = true) :
    ∃ n r, lookupEntry (addToMerge st s).audioStreams s.sid
      = some { localAudioSource := some n, remoteAudioSource := r } := by
  unfold addToMerge bindStreams
  simp only [hh, Bool.false_and, Bool.false_eq_true, if_false]
  rw [hl]
  have hctx0 : (checkMaxMergeSessions st (st.audioStreams.length + 1)).audioContextPresent
      = true := by
    rw [checkMax_audioContextPresent]; exact hctx
  rw [addAudioStream_present _ hctx0]
  exact ⟨_, _, lookupEntry_setEntry_self _ _ _⟩

theorem addToMerge_eq_remote (st : MixState) (s : MergeSession) (d : Nat)
    (hctx : st.audioContextPresent = true) (hdest : st.mergeDestination = some d)
    (hh : s.localHold = false) (hl : s.hasLocalStream = true)
    (hr : s.hasRemoteStream = true) :
    addToMerge st s = { st with
        warnings := if st.audioStreams.length + 1 < MAX_MERGE_SESSIONS then st.warnings
          else st.warnings + 1,
        nextNode := st.nextNode + 1 + 1,
        connections := (st.connections ++ [(st.nextNode, d)]) ++ [(st.nextNode + 1, d)],
        offers := st.offers + 1,
        audioStreams := setEntry st.audioStreams s.sid
          { localAudioSource := some st.nextNode,
            remoteAudioSource := some (st.nextNode + 1) } } := by
  unfold addToMerge bindStreams addAudioStream checkMaxMergeSessions
  by_cases hw : st.audioStreams.length + 1 < MAX_MERGE_SESSIONS <;>
    simp [hh, hctx, hdest, hl, hr, hw]

theorem addToMerge_eq_noremote (st : MixState) (s : MergeSession) (d : Nat)
    (hctx : st.audioContextPresent = true) (hdest : st.mergeDestination = some d)
    (hh : s.localHold = false) (hl : s.hasLocalStream = true)
    (hr : s.hasRemoteStream = false) :
    addToMerge st s = { st with
        warnings := if st.audioStreams.length + 1 < MAX_MERGE_SESSIONS then st.warnings
          else st.warnings + 1,
        nextNode := st.nextNode + 1,
        connections := st.connections ++ [(st.nextNode, d)],
        offers := st.offers + 1,
        audioStreams := setEntry st.audioStreams s.sid
          { localAudioSource := some st.nextNode, remoteAudioSource := none } } := by
  unfold addToMerge bindStreams addAudioStream checkMaxMergeSessions
  by_cases hw : st.audioStreams.length + 1 < MAX_MERGE_SESSIONS <;>
    simp [hh, hctx, hdest, hl, hr, hw]

/- The connection list removeFromMerge leaves behind: both sources are
   disconnected from the shared destination d and reconnected to the fresh
   destination node newDest. -/
def removalConnections (conns : List (Nat × Nat)) (n : Nat) (r : Option Nat)
    (d newDest : Nat) : List (Nat × Nat) :=
  ((disconnectEdge (match r with
      | some rr => disconnectEdge conns rr d
      | none => conns) n d) ++ [(n, newDest)]) ++
    (match r with
     | some rr => [(rr, newDest)]
     | none => [])

theorem removeFromMerge_some (st : MixState) (s : MergeSession) (hold : Bool)
    (n : Nat) (r : Option Nat) (d : Nat)
    (hlook : lookupEntry st.audioStreams s.sid
      = some { localAudioSource := some n, remoteAudioSource := r })
    (hdest : st.mergeDestination = some d)
    (hctx : st.audioContextPresent = true)
    (hcl : s.pcClosed = false) :
    removeFromMerge st s hold = some
      { st with
          connections := removalConnections st.connections n r d st.nextNode,
          nextNode := st.nextNode + 1,
          audioStreams := eraseEntry st.audioStreams s.sid,
          offers := st.offers + 1,
          holdsIssued := st.holdsIssued + (if hold then 1 else 0) } := by
  cases r with
  | none =>
    unfold removeFromMerge removalConnections
    rw [hlook, hdest]
    simp [hctx, hcl]
  | some rr =>
    unfold removeFromMerge removalConnections
    rw [hlook, hdest]
    simp [hctx, hcl]

/- Membership helpers for the audio graph. -/

theorem not_mem_disconnectEdge_self (c : List (Nat × Nat)) (x d : Nat) :
    (x, d) ∉ disconnectEdge c x d := by
  intro h
  have h2 := (List.mem_filter.mp h).2
  simp at h2

theorem mem_of_mem_disconnectEdge (c : List (Nat × Nat)) (x d : Nat) (p : Nat × Nat)
    (hp : p ∈ disconnectEdge c x d) : p ∈ c :=
  (List.mem_filter.mp hp).1

theorem not_mem_removalConnections (c : List (Nat × Nat)) (n : Nat) (r : Option Nat)
    (d newDest : Nat) (hnd : d ≠ newDest) (src : Nat)
    (hsrc : src = n ∨ r = some src) :
    (src, d) ∉ removalConnections c n r d newDest := by
  intro hmem
  unfold removalConnections at hmem
  rcases List.mem_append.mp hmem with h1 | h2
  · rcases List.mem_append.mp h1 with h3 | h4
    · rcases hsrc with rfl | hr
      · exact not_mem_disconnectEdge_self _ _ _ h3
      · cases r with
        | none => cases hr
        | some rr =>
          have hrr : rr = src := Option.some.inj hr
          have h5 := mem_of_mem_disconnectEdge _ _ _ _ h3
          rw [hrr] at h5
          exact not_mem_disconnectEdge_self _ _ _ h5
    · simp at h4
      exact hnd h4.2
  · cases r with
    | none => simp at h2
    | some rr =>
      simp at h2
      exact hnd h2.2

/-- C6 (amended): for every state whose audio context and shared mixer
destination exist, addToMerge on a session that is not held and whose
peer connection is still open, with a local stream available, followed by
removeFromMerge on the same session succeeds, leaves the session's
MergeEntry absent, leaves the shared mixer destination unchanged, and
leaves both the local and the remote audio source node of that entry
disconnected from the shared mixer destination. (With a closed peer
connection removeFromMerge returns early and the entry survives: see the
counterexample below.) -/
theorem add_remove_merge_roundtrip (st : MixState) (s : MergeSession) (d : Nat)
    (hctx : st.audioContextPresent = true)
    (hdest : st.mergeDestination = some d)
    (hd : d < st.nextNode)
    (hh : s.localHold = false)
    (hcl : s.pcClosed = false)
    (hl : s.hasLocalStream = true) :
    ∃ st2, removeFromMerge (addToMerge st s) s true = some st2
      ∧ lookupEntry st2.audioStreams s.sid = none
      ∧ st2.mergeDestination = some d
      ∧ (∀ e src, lookupEntry (addToMerge st s).audioStreams s.sid = some e →
          (e.localAudioSource = some src ∨ e.remoteAudioSource = some src) →
          (src, d) ∉ st2.connections) := by
  have hAdest : (addToMerge st s).mergeDestination = some d := by
    rw [addToMerge_mergeDestination]; exact hdest
  have hActx : (addToMerge st s).audioContextPresent = true := by
    rw [addToMerge_audioContextPresent]; exact hctx
  cases hr : s.hasRemoteStream with
  | true =>
    have hA := addToMerge_eq_remote st s d hctx hdest hh hl hr
    have hAlook : lookupEntry (addToMerge st s).audioStreams s.sid
        = some { localAudioSource := some st.nextNode,
                 remoteAudioSource := some (st.nextNode + 1) } := by
      rw [hA]
      exact lookupEntry_setEntry_self _ _ _
    have hrm := removeFromMerge_some (addToMerge st s) s true st.nextNode
      (some (st.nextNode + 1)) d hAlook hAdest hActx hcl
    have hAnn : (addToMerge st s).nextNode = st.nextNode + 1 + 1 := by rw [hA]
    refine ⟨_, hrm, ?_, ?_, ?_⟩
    · exact lookupEntry_eraseEntry_self _ _
    · exact hAdest
    · intro e src hle hsrc
      rw [hAlook] at hle
      injection hle with he
      subst he
      show (src, d) ∉ removalConnections (addToMerge st s).connections st.nextNode
        (some (st.nextNode + 1)) d (addToMerge st s).nextNode
      apply not_mem_removalConnections
      · rw [hAnn]
        omega
      · rcases hsrc with h1 | h1
        · exact Or.inl (Option.some.inj h1).symm
        · exact Or.inr h1
  | false =>
    have hA := addToMerge_eq_noremote st s d hctx hdest hh hl hr
    have hAlook : lookupEntry (addToMerge st s).audioStreams s.sid
        = some { localAudioSource := some st.nextNode, remoteAudioSource := none } := by
      rw [hA]
      exact lookupEntry_setEntry_self _ _ _
    have hrm := removeFromMerge_some (addToMerge st s) s true st.nextNode
      none d hAlook hAdest hActx hcl
    have hAnn : (addToMerge st s).nextNode = st.nextNode + 1 := by rw [hA]
    refine ⟨_, hrm, ?_, ?_, ?_⟩
    · exact lookupEntry_eraseEntry_self _ _
    · exact hAdest
    · intro e src hle hsrc
      rw [hAlook] at hle
      injection hle with he
      subst he
      show (src, d) ∉ removalConnections (addToMerge st s).connections st.nextNode
        none d (addToMerge st s).nextNode
      apply not_mem_removalConnections
      · rw [hAnn]
        omega
      · rcases hsrc with h1 | h1
        · exact Or.inl (Option.some.inj h1).symm
        · cases h1

theorem add_remove_merge_roundtrip_witness :
    ∃ st2, removeFromMerge (addToMerge cleanMixState mixSessionOne) mixSessionOne true
        = some st2
      ∧ lookupEntry st2.audioStreams mixSessionOne.sid = none
      ∧ st2.mergeDestination = some 0
      ∧ (∀ e src,
          lookupEntry (addToMerge cleanMixState mixSessionOne).audioStreams mixSessionOne.sid
            = some e →
          (e.localAudioSource = some src ∨ e.remoteAudioSource = some src) →
          (src, 0) ∉ st2.connections) :=
  add_remove_merge_roundtrip cleanMixState mixSessionOne 0 rfl rfl (by decide) rfl rfl rfl

/-- C6 (counterexample): a session whose peer connection has closed by the
time removeFromMerge runs. addToMerge records its MergeEntry, but
removeFromMerge hits the signalingState/iceConnectionState check and
returns early, BEFORE `delete this.audioStreams[...]`: the call completes
without raising, yet the session's MergeEntry is still present, so the
claim as stated (entry absent after every addToMerge/removeFromMerge
sequence) is false at this input. -/
theorem add_remove_closed_pc_counterexample :
    closedPcSession.pcClosed = true
    ∧ (removeFromMerge (addToMerge cleanMixState closedPcSession) closedPcSession true).map
        (fun st2 => (lookupEntry st2.audioStreams closedPcSession.sid).isSome)
      = some true := by
  decide

/- Facts about folding addToMerge over a session list (the body of merge). -/

theorem foldl_addToMerge_facts (l : List MergeSession) : ∀ (st : MixState),
    st.audioContextPresent = true →
    (∀ x ∈ l, x.localHold = false ∧ x.hasLocalStream = true) →
    (List.foldl addToMerge st l).audioContextPresent = true
    ∧ (List.foldl addToMerge st l).mergeDestination = st.mergeDestination
    ∧ (∀ k, k ∉ l.map MergeSession.sid →
        lookupEntry (List.foldl addToMerge st l).audioStreams k = lookupEntry st.audioStreams k)
    ∧ ((l.map MergeSession.sid).Nodup →
        ∀ x ∈ l, ∃ n r, lookupEntry (List.foldl addToMerge st l).audioStreams x.sid
          = some { localAudioSource := some n, remoteAudioSource := r }) := by
  induction l with
  | nil =>
    intro st hctx _
    exact ⟨hctx, rfl, fun k _ => rfl, fun _ x hx => absurd hx (List.not_mem_nil x)⟩
  | cons y rest ih =>
    intro st hctx hall
    have hy := hall y (List.mem_cons_self y rest)
    have hctx' : (addToMerge st y).audioContextPresent = true := by
      rw [addToMerge_audioContextPresent]; exact hctx
    have hall' : ∀ x ∈ rest, x.localHold = false ∧ x.hasLocalStream = true :=
      fun x hx => hall x (List.mem_cons_of_mem y hx)
    obtain ⟨ihc, ihd, ihn, ihm⟩ := ih (addToMerge st y) hctx' hall'
    refine ⟨ihc, ?_, ?_, ?_⟩
    · show (List.foldl addToMerge (addToMerge st y) rest).mergeDestination = st.mergeDestination
      rw [ihd, addToMerge_mergeDestination]
    · intro k hk
      have hk1 : k ≠ y.sid := by
        intro he
        exact hk (by rw [List.map_cons, he]; exact List.mem_cons_self _ _)
      have hk2 : k ∉ rest.map MergeSession.sid := by
        intro hm
        exact hk (by rw [List.map_cons]; exact List.mem_cons_of_mem _ hm)
      show lookupEntry (List.foldl addToMerge (addToMerge st y) rest).audioStreams k = _
      rw [ihn k hk2, addToMerge_lookupEntry_ne st y k hk1]
    · intro hnd x hx
      have hcons := List.nodup_cons.mp
        (show (y.sid :: rest.map MergeSession.sid).Nodup by simpa using hnd)
      rcases List.mem_cons.mp hx with rfl | hx'
      · obtain ⟨n, r, hlk⟩ := addToMerge_lookup_self_local st x hy.1 hctx hy.2
        refine ⟨n, r, ?_⟩
        show lookupEntry (List.foldl addToMerge (addToMerge st x) rest).audioStreams x.sid = _
        rw [ihn x.sid hcons.1]
        exact hlk
      · exact ihm hcons.2 x hx'

/- The removal pass of unmerge deletes exactly the listed entries. -/

theorem unmergeRemovals_some (l : List MergeSession) : ∀ (st : MixState) (d : Nat),
    st.audioContextPresent = true →
    st.mergeDestination = some d →
    (l.map MergeSession.sid).Nodup →
    (∀ x ∈ l, x.pcClosed = false ∧ ∃ n r, lookupEntry st.audioStreams x.sid
        = some { localAudioSource := some n, remoteAudioSource := r }) →
    ∃ st2, unmergeRemovals st l = some st2
      ∧ st2.mergeDestination = some d
      ∧ st2.audioContextPresent = true
      ∧ (∀ k, lookupEntry st2.audioStreams k
          = if k ∈ l.map MergeSession.sid then none else lookupEntry st.audioStreams k) := by
  induction l with
  | nil =>
    intro st d hctx hdest _ _
    exact ⟨st, rfl, hdest, hctx, fun k => by simp⟩
  | cons s rest ih =>
    intro st d hctx hdest hnd hall
    obtain ⟨hcl, n, r, hlk⟩ := hall s (List.mem_cons_self s rest)
    have heq := removeFromMerge_some st s (decide (rest ≠ [])) n r d hlk hdest hctx hcl
    have hex : ∃ st1, removeFromMerge st s (decide (rest ≠ [])) = some st1
        ∧ st1.audioStreams = eraseEntry st.audioStreams s.sid
        ∧ st1.mergeDestination = st.mergeDestination
        ∧ st1.audioContextPresent = st.audioContextPresent :=
      ⟨_, heq, rfl, rfl, rfl⟩
    obtain ⟨st1, h1, h1s, h1d, h1c⟩ := hex
    have hstep : unmergeRemovals st (s :: rest) = unmergeRemovals st1 rest := by
      simp only [unmergeRemovals, h1]
    have hcons := List.nodup_cons.mp
      (show (s.sid :: rest.map MergeSession.sid).Nodup by simpa using hnd)
    have hall' : ∀ x ∈ rest, x.pcClosed = false
        ∧ ∃ n' r', lookupEntry st1.audioStreams x.sid
          = some { localAudioSource := some n', remoteAudioSource := r' } := by
      intro x hx
      obtain ⟨hxcl, n', r', hxlk⟩ := hall x (List.mem_cons_of_mem s hx)
      refine ⟨hxcl, n', r', ?_⟩
      rw [h1s, lookupEntry_eraseEntry_ne st.audioStreams s.sid x.sid ?hne]
      · exact hxlk
      case hne =>
        intro he
        exact hcons.1 (he ▸ List.mem_map_of_mem MergeSession.sid hx)
    obtain ⟨st2, h2run, h2d, h2c, h2lk⟩ := ih st1 d (by rw [h1c]; exact hctx)
      (by rw [h1d]; exact hdest) hcons.2 hall'
    refine ⟨st2, by rw [hstep]; exact h2run, h2d, h2c, ?_⟩
    intro k
    rw [h2lk k]
    by_cases hk : k ∈ rest.map MergeSession.sid
    · simp [hk]
    · by_cases hks : k = s.sid
      · subst hks
        simp [hk, h1s, lookupEntry_eraseEntry_self]
      · simp [hk, hks, h1s, lookupEntry_eraseEntry_ne st.audioStreams s.sid k hks]

theorem merge_state (st : MixState) (sessions : List MergeSession)
    (hctx : st.audioContextPresent = true) :
    merge st sessions = List.foldl addToMerge
      { checkMaxMergeSessions st sessions.length with
          mergeDestination := some (checkMaxMergeSessions st sessions.length).nextNode,
          nextNode := (checkMaxMergeSessions st sessions.length).nextNode + 1 } sessions := by
  have hc : (checkMaxMergeSessions st sessions.length).audioContextPresent = true := by
    rw [checkMax_audioContextPresent]; exact hctx
  simp [merge, hc]

/-- C7 (amended): for every session set with pairwise distinct ids, no
held session, open peer connections and available local streams, merge
followed immediately by unmerge on the same set succeeds and, starting
from a client with no MergeEntry, leaves zero MergeEntry instances and a
null shared mixer destination. (A held session makes the immediate
unmerge raise before the destination is nulled, and a closed peer
connection makes its entry survive the unmerge: see the counterexample
below.) -/
theorem merge_unmerge_clean (st : MixState) (sessions : List MergeSession)
    (hctx : st.audioContextPresent = true)
    (hempty : st.audioStreams = [])
    (hnd : (sessions.map MergeSession.sid).Nodup)
    (hall : ∀ x ∈ sessions,
      x.localHold = false ∧ x.pcClosed = false ∧ x.hasLocalStream = true) :
    ∃ st2, unmerge (merge st sessions) sessions = some st2
      ∧ st2.audioStreams = [] ∧ st2.mergeDestination = none := by
  have hmerge := merge_state st sessions hctx
  set stM : MixState :=
    { checkMaxMergeSessions st sessions.length with
        mergeDestination := some (checkMaxMergeSessions st sessions.length).nextNode,
        nextNode := (checkMaxMergeSessions st sessions.length).nextNode + 1 } with hstM
  have hctx1 : stM.audioContextPresent = true := by
    show (checkMaxMergeSessions st sessions.length).audioContextPresent = true
    rw [checkMax_audioContextPresent]; exact hctx
  have hempty1 : stM.audioStreams = [] := by
    show (checkMaxMergeSessions st sessions.length).audioStreams = []
    rw [checkMax_audioStreams]; exact hempty
  obtain ⟨hfc, hfd, hfn, hfm⟩ := foldl_addToMerge_facts sessions stM hctx1
    (fun x hx => ⟨(hall x hx).1, (hall x hx).2.2⟩)
  have hfd' : (List.foldl addToMerge stM sessions).mergeDestination
      = some (checkMaxMergeSessions st sessions.length).nextNode := by
    rw [hfd]
  have hallR : ∀ x ∈ sessions, x.pcClosed = false
      ∧ ∃ n r, lookupEntry (List.foldl addToMerge stM sessions).audioStreams x.sid
        = some { localAudioSource := some n, remoteAudioSource := r } :=
    fun x hx => ⟨(hall x hx).2.1, hfm hnd x hx⟩
  obtain ⟨st2, hrun, h2d, h2c, h2lk⟩ := unmergeRemovals_some sessions
    (List.foldl addToMerge stM sessions)
    (checkMaxMergeSessions st sessions.length).nextNode hfc hfd' hnd hallR
  have hnil2 : st2.audioStreams = [] := by
    apply eq_nil_of_lookupEntry_none
    intro k
    rw [h2lk k]
    by_cases hk : k ∈ sessions.map MergeSession.sid
    · simp [hk]
    · rw [if_neg hk, hfn k hk, hempty1]
      rfl
  refine ⟨{ st2 with mergeDestination := none }, ?_, hnil2, rfl⟩
  unfold unmerge
  rw [hmerge, hrun]
  rfl

theorem merge_unmerge_clean_witness :
    ∃ st2, unmerge (merge freshMixState [mixSessionOne, mixSessionTwo])
        [mixSessionOne, mixSessionTwo] = some st2
      ∧ st2.audioStreams = [] ∧ st2.mergeDestination = none :=
  merge_unmerge_clean freshMixState [mixSessionOne, mixSessionTwo] rfl rfl
    (by decide) (by decide)

/-- C7 (counterexample): two session sets on which the claim as stated
fails. For a session whose peer connection has closed, merge records its
MergeEntry and unmerge resolves (nulling the destination) while the entry
survives the removal pass — not zero MergeEntry instances. For a held
session, merge defers the binding so no entry exists, the immediate
unmerge raises while destructuring the missing entry, and the shared
mixer destination created by merge is never set to null. -/
theorem merge_unmerge_divergence_counterexample :
    ((unmerge (merge freshMixState [closedPcSession]) [closedPcSession]).map
        (fun st2 => ((lookupEntry st2.audioStreams closedPcSession.sid).isSome,
          st2.mergeDestination.isNone))
      = some (true, true))
    ∧ unmerge (merge freshMixState [heldSession]) [heldSession] = none
    ∧ (merge freshMixState [heldSession]).mergeDestination ≠ none := by
  decide
